import Mathlib

/-!
Shallow embedding of the incremental Excel-content indexer
(`DatabaseManager` in `trust_me.py`) and proofs about its claims.

The persistent store is SQLite with two tables:

  files(id INTEGER PRIMARY KEY, file_path TEXT UNIQUE,
        last_modified TIMESTAMP, last_indexed TIMESTAMP)
  content_index(id INTEGER PRIMARY KEY, file_id INTEGER,
        sheet_name TEXT, cell_coordinate TEXT, content TEXT)

Tables are modelled as lists of rows in rowid order.  Python's `sqlite3`
module (no `detect_types`) adapts a `datetime.datetime` parameter to its
ISO text form on INSERT and returns TIMESTAMP columns as plain `str` on
SELECT; both timestamps are therefore `String` fields in the row model.
INTEGER PRIMARY KEY ids are allocated as max(existing id)+1 (SQLite's
rowid allocation without AUTOINCREMENT), which the model reproduces.
-/

/-- Python value stored in a worksheet cell (`cell.value` in openpyxl):
`None`, a string, an integer or a boolean. -/
inductive PyValue where
  | none
  | str (s : String)
  | int (n : Int)
  | bool (b : Bool)
deriving DecidableEq, Repr

/-- Python truthiness of a cell value: the `if cell.value:` test of the
source keeps a cell only when its value is truthy (`None`, `""`, `0` and
`False` are all falsy). -/
def PyValue.truthy : PyValue → Bool
  | .none => false
  | .str s => !s.isEmpty
  | .int n => n != 0
  | .bool b => b

/-- Python `str()` of a cell value, as the source applies it when building
`content_values`. -/
def PyValue.toStr : PyValue → String
  | .none => "None"
  | .str s => s
  | .int n => toString n
  | .bool true => "True"
  | .bool false => "False"

/-- Row of the `files` table.  `last_modified` and `last_indexed` hold the
ISO text that Python's sqlite3 default `datetime` adapter stores. -/
structure FilesRow where
  id : Nat
  file_path : String
  last_modified : String
  last_indexed : String
deriving DecidableEq, Repr

/-- Row of the `content_index` table. -/
structure ContentRow where
  id : Nat
  file_id : Nat
  sheet_name : String
  cell_coordinate : String
  content : String
deriving DecidableEq, Repr

/-- The whole store: both tables, rows kept in rowid order. -/
structure DB where
  files : List FilesRow
  content_index : List ContentRow
deriving DecidableEq, Repr

/-- SQLite's default case folding for `LIKE`: ASCII `A`-`Z` are folded to
lower case, every other character (including non-ASCII letters) is left
unchanged. -/
def likeFold (c : Char) : Char :=
  if 'A' ≤ c ∧ c ≤ 'Z' then Char.ofNat (c.toNat + 32) else c

/-- SQLite `LIKE` pattern matching (default `case_sensitive_like` off, no
ESCAPE clause): `%` matches any sequence of characters, `_` any single
character, and all other characters compare ASCII-case-insensitively. -/
def likeMatch : List Char → List Char → Bool
  | [], s => s.isEmpty
  | p :: ps, s =>
      if p = '%' then s.tails.any fun t => likeMatch ps t
      else
        match s with
        | [] => false
        | c :: s' => (if p = '_' then true else likeFold p == likeFold c) && likeMatch ps s'

/-- String-level wrapper: `pat LIKE s` in SQLite. -/
def sqliteLike (pat s : String) : Bool :=
  likeMatch pat.data s.data

/-- `DatabaseManager.search(query)`: SELECT f.file_path, ci.sheet_name,
ci.cell_coordinate, ci.content FROM content_index ci JOIN files f ON
ci.file_id = f.id WHERE ci.content LIKE '%query%'. -/
def search (db : DB) (query : String) : List (String × String × String × String) :=
  (db.content_index.filter fun ci =>
      sqliteLike ("%" ++ query ++ "%") ci.content).flatMap fun ci =>
    (db.files.filter fun f => f.id == ci.file_id).map fun f =>
      (f.file_path, ci.sheet_name, ci.cell_coordinate, ci.content)

/-- Characters with no wildcard meaning in a LIKE pattern. -/
def noMeta (l : List Char) : Prop := ∀ c ∈ l, c ≠ '%' ∧ c ≠ '_'

/-- Store holding one entry with content "abc", used as a concrete input. -/
def dbLower : DB :=
  ⟨[⟨1, "f.xlsx", "2023-01-01 00:00:00", "2023-01-02 00:00:00"⟩],
   [⟨1, 1, "Sheet1", "A1", "abc"⟩]⟩

/-- Store holding one entry with content "abc", concrete input for the
case-insensitivity instance. -/
def dbUpperQuery : DB :=
  ⟨[⟨1, "g.xlsx", "2023-02-01 00:00:00", "2023-02-02 00:00:00"⟩],
   [⟨1, 1, "S", "A1", "abc"⟩]⟩

/-- Python sqlite3's default adapter renders a `datetime.datetime`
parameter as ISO text before storing it.  Model instants are abstract
(`Nat`); only injectivity of the rendering matters to the claims. -/
def adaptDatetime (t : Nat) : String := toString t

/-- Message of the exception Python raises for `str < datetime.datetime`. -/
def pyTypeErrorMsg : String :=
  "TypeError: '<' not supported between instances of 'str' and 'datetime.datetime'"

/-- Python comparison of a `str` (a TIMESTAMP column fetched by sqlite3
without `detect_types`) against a `datetime.datetime`: unsupported operand
types, so it raises `TypeError` for every pair of operands. -/
def pyStrLtDatetime (_stored : String) (_mt : Nat) : Except String Bool :=
  Except.error pyTypeErrorMsg

/-- `DatabaseManager.needs_update`: SELECT last_modified FROM files WHERE
file_path = ?; `result is None or result[0] < modified_time`.  When a row
exists, `result[0]` is a Python `str` and `modified_time` a
`datetime.datetime`, so the short-circuit `or` evaluates a comparison that
raises `TypeError`. -/
def needs_update (db : DB) (file_path : String) (modified_time : Nat) :
    Except String Bool :=
  match db.files.find? (fun f => f.file_path == file_path) with
  | Option.none => Except.ok true
  | Option.some row => pyStrLtDatetime row.last_modified modified_time

/-- One worksheet cell as openpyxl yields it. -/
structure XCell where
  coordinate : String
  value : PyValue
deriving DecidableEq, Repr

/-- One worksheet: its name, the rows of cells its iteration yields before
either completing or raising, and whether it raises after them.  The
source's per-sheet loop appends one entry per truthy cell as it goes and
its `except` clause catches a mid-iteration exception and `continue`s, so
the cells yielded before the exception keep their appended entries; a
sheet that raises immediately (e.g. `wb[sheet_name]` fails) has
`rows = []` and `fails = true`.  A final row shorter than the sheet's
width models an exception in the middle of a row. -/
structure XSheet where
  name : String
  rows : List (List XCell)
  fails : Bool
deriving DecidableEq, Repr

/-- One candidate file: its path, filesystem mtime, and the workbook
content `openpyxl.load_workbook` would yield — `Option.none` when opening
or parsing the document raises. -/
structure XFile where
  path : String
  mtime : Nat
  book : Option (List XSheet)
deriving DecidableEq, Repr

/-- SQLite rowid allocation for INTEGER PRIMARY KEY without AUTOINCREMENT:
one more than the largest rowid present (1 for an empty table). -/
def nextId (ids : List Nat) : Nat := ids.foldr max 0 + 1

/-- Fallible store operations of `index_file`, in program order.  `opTx`
stands for cursor creation plus the explicit `BEGIN TRANSACTION`, which
the source runs between `load_workbook` and the inner try; the others are
the statements between `BEGIN` and `conn.commit()`. -/
inductive TxStep where
  | opTx
  | opDeleteFiles
  | opDeleteContent
  | opInsertFile
  | opInsertContent
  | opCommit
deriving DecidableEq, Repr

/-- Contribution of one cell to `content_values`: the tuple
`(file_id, sheet_name, cell.coordinate, str(cell.value))` when the cell
passes `if cell.value:` (Python truthiness), nothing otherwise. -/
def cellEntry (file_id : Nat) (sheet_name : String) (cell : XCell) :
    Option (Nat × String × String × String) :=
  if cell.value.truthy then
    Option.some (file_id, sheet_name, cell.coordinate, cell.value.toStr)
  else Option.none

/-- Per-sheet part of the sheet loop: one entry per truthy cell among the
rows the sheet yields, in row order.  Whether the sheet then raises
(`sh.fails`) does not remove anything: the appends already happened and
the per-sheet except only logs to the console and `continue`s. -/
def sheet_values (file_id : Nat) (sh : XSheet) :
    List (Nat × String × String × String) :=
  sh.rows.flatMap fun row => row.filterMap (cellEntry file_id sh.name)

/-- The outer sheet loop: one `sheet_values` block per sheet, in order. -/
def content_values (file_id : Nat) (sheets : List XSheet) :
    List (Nat × String × String × String) :=
  sheets.flatMap (sheet_values file_id)

/-- `cursor.executemany` over the content INSERT: each tuple becomes a row
with the next free rowid, appended in order. -/
def insertContentRows (tbl : List ContentRow)
    (vals : List (Nat × String × String × String)) : List ContentRow :=
  match vals with
  | [] => tbl
  | v :: vs =>
      insertContentRows
        (tbl ++ [⟨nextId (tbl.map (fun r => r.id)), v.1, v.2.1, v.2.2.1, v.2.2.2⟩]) vs

/-- One line of `index_errors.log` for a failed file (the source prefixes
it with `datetime.now()`, a wall-clock reading not modelled here). -/
def errLogLine (file_path msg : String) : String :=
  "文件 " ++ file_path ++ " 索引失败: " ++ msg

/-- Outcome of one `index_file` call: the store afterwards, the error-log
lines appended, and whether the workbook handle was opened / closed. -/
structure IndexFileResult where
  db : DB
  log : List String
  wbOpened : Bool
  wbClosed : Bool
deriving DecidableEq, Repr

/-- `DatabaseManager.index_file`: open the workbook; then cursor +
`BEGIN TRANSACTION`; then, inside a try whose `finally` runs
`wb.close()`: DELETE the files row for the path, DELETE the
content_index rows whose file_id the subquery `SELECT id FROM files WHERE
file_path = ?` yields (run against the already-updated files table),
INSERT the new files row (`lastrowid` becomes the owning id), collect
`content_values` from the sheets, bulk-INSERT them, `conn.commit()`.
`failAt` injects a store failure (e.g. SQLITE_BUSY / SQLITE_FULL) at the
named operation: the inner except runs `conn.rollback()` and re-raises,
and the outer except appends one line to index_errors.log.  A failure at
`opTx` happens before the try/finally, so no `wb.close()` runs for it. -/
def index_file (db : DB) (file_path : String) (modified_time current_time : Nat)
    (book : Option (List XSheet)) (failAt : Option TxStep) : IndexFileResult :=
  match book with
  | Option.none =>
      { db := db, log := [errLogLine file_path "load_workbook failed"],
        wbOpened := false, wbClosed := false }
  | Option.some sheets =>
      if failAt = Option.some TxStep.opTx then
        { db := db, log := [errLogLine file_path "cannot start a transaction"],
          wbOpened := true, wbClosed := false }
      else if failAt = Option.some TxStep.opDeleteFiles then
        { db := db, log := [errLogLine file_path "DELETE files failed"],
          wbOpened := true, wbClosed := true }
      else
        let files1 := db.files.filter fun f => !(f.file_path == file_path)
        if failAt = Option.some TxStep.opDeleteContent then
          { db := db, log := [errLogLine file_path "DELETE content_index failed"],
            wbOpened := true, wbClosed := true }
        else
          let content1 := db.content_index.filter fun ci =>
            !(files1.any fun f => f.file_path == file_path && f.id == ci.file_id)
          if failAt = Option.some TxStep.opInsertFile then
            { db := db, log := [errLogLine file_path "INSERT files failed"],
              wbOpened := true, wbClosed := true }
          else
            let fid := nextId (files1.map (fun f => f.id))
            let files2 := files1 ++
              [⟨fid, file_path, adaptDatetime modified_time, adaptDatetime current_time⟩]
            let vals := content_values fid sheets
            if failAt = Option.some TxStep.opInsertContent then
              { db := db, log := [errLogLine file_path "INSERT content_index failed"],
                wbOpened := true, wbClosed := true }
            else
              let content2 := insertContentRows content1 vals
              if failAt = Option.some TxStep.opCommit then
                { db := db, log := [errLogLine file_path "commit failed"],
                  wbOpened := true, wbClosed := true }
              else
                { db := ⟨files2, content2⟩, log := [],
                  wbOpened := true, wbClosed := true }

/-- `os.path.basename`: the part of the path after the last separator. -/
def baseName (p : String) : String :=
  String.mk (p.data.foldl (fun acc c => if c = '/' then [] else acc ++ [c]) [])

/-- Outcome of one `update_index` run: the store, the error-log lines, and
the `(percent, label)` arguments of every progress-callback invocation in
order. -/
structure RunResult where
  db : DB
  log : List String
  events : List (Nat × String)
deriving DecidableEq, Repr

/-- Body of the per-file loop of `update_index` for the candidate at
0-based position `i` of `total`: ask `needs_update`; on True report
`int((i+1)*100/total)` with the file's basename and run `index_file`; any
exception of the body — in particular the TypeError out of `needs_update`
— is caught, printed to the console, and the loop continues. -/
def update_step (current_time : Nat) (failAt : String → Option TxStep)
    (total i : Nat) (acc : RunResult) (f : XFile) : RunResult :=
  match needs_update acc.db f.path f.mtime with
  | Except.error _ => acc
  | Except.ok false => acc
  | Except.ok true =>
      let r := index_file acc.db f.path f.mtime current_time f.book (failAt f.path)
      { db := r.db, log := acc.log ++ r.log,
        events := acc.events ++ [((i + 1) * 100 / total, "正在索引: " ++ baseName f.path)] }

/-- The `for i, file_path in enumerate(excel_files)` loop. -/
def update_loop (current_time : Nat) (failAt : String → Option TxStep)
    (total : Nat) : Nat → RunResult → List XFile → RunResult
  | _, acc, [] => acc
  | i, acc, f :: fs =>
      update_loop current_time failAt total (i + 1)
        (update_step current_time failAt total i acc f) fs

/-- `DatabaseManager.update_index` over the already-enumerated candidate
list (`excel_files` in `os.walk` order, filtered on the
`.xlsx`/`.xlsm` whitelist and the `~$` lock marker): run the loop, then
report `(100, "索引完成")`. -/
def update_index (files : List XFile) (db : DB) (current_time : Nat)
    (failAt : String → Option TxStep) : RunResult :=
  let run := update_loop current_time failAt files.length 0
    { db := db, log := [], events := [] } files
  { run with events := run.events ++ [(100, "索引完成")] }

/-- Store already holding one committed version of "a.xlsx": the files row
(rowid 1) and one owned content row (content "old"). -/
def dbBefore : DB :=
  ⟨[⟨1, "a.xlsx", "1", "2"⟩], [⟨1, 1, "Sheet1", "A1", "old"⟩]⟩

/-- New workbook content of "a.xlsx": one sheet whose A1 now holds "new". -/
def bookNew : List XSheet :=
  [⟨"Sheet1", [[⟨"A1", PyValue.str "new"⟩]], false⟩]

/-- Store with a committed record for "old.xlsx" (stored last_modified is
the TEXT "1", as the adapter wrote it). -/
def dbWithOld : DB := ⟨[⟨1, "old.xlsx", "1", "2"⟩], []⟩

/-- Candidate "old.xlsx" whose filesystem mtime 7 is strictly newer than
the stored timestamp. -/
def fOldNewer : XFile :=
  ⟨"old.xlsx", 7, Option.some [⟨"S", [[⟨"A1", PyValue.str "x"⟩]], false⟩]⟩

/-- Fresh, empty store. -/
def dbFresh : DB := ⟨[], []⟩

/-- Workbook whose only cell A1 holds the integer 0. -/
def bookZero : List XSheet :=
  [⟨"Sheet1", [[⟨"A1", PyValue.int 0⟩]], false⟩]

/-- Projection of a content row onto its non-rowid columns. -/
def stripId (r : ContentRow) : Nat × String × String × String :=
  (r.file_id, r.sheet_name, r.cell_coordinate, r.content)

/-- Mixed workbook: a sheet that completes, holding a truthy cell and a
falsy cell, and a sheet that yields one truthy cell and then raises. -/
def bookMix : List XSheet :=
  [⟨"Good", [[⟨"A1", PyValue.str "v"⟩, ⟨"A2", PyValue.int 0⟩]], false⟩,
   ⟨"Flaky", [[⟨"B1", PyValue.str "w"⟩]], true⟩]

/-- Unrecorded candidate "new.xlsx". -/
def fNew : XFile :=
  ⟨"new.xlsx", 3, Option.some [⟨"S", [[⟨"A1", PyValue.str "y"⟩]], false⟩]⟩

/-- Modelled from the spec's words (as amended): the per-candidate
progress reports the run should emit — one report
`(int((i+1)*100/total), "正在索引: " ++ basename)` for each candidate the
change check (evaluated against the store as it stands when that
candidate is reached) marks as needing indexing, and none for any other
candidate. -/
def progressEventsSpec (current_time : Nat) (failAt : String → Option TxStep)
    (total : Nat) : Nat → DB → List XFile → List (Nat × String)
  | _, _, [] => []
  | i, db, f :: fs =>
      match needs_update db f.path f.mtime with
      | Except.ok true =>
          ((i + 1) * 100 / total, "正在索引: " ++ baseName f.path) ::
            progressEventsSpec current_time failAt total (i + 1)
              (index_file db f.path f.mtime current_time f.book (failAt f.path)).db fs
      | _ => progressEventsSpec current_time failAt total (i + 1) db fs

/-- A FileRecord exists for the path. -/
def recordedP (db : DB) (p : String) : Prop := ∃ row ∈ db.files, row.file_path = p

instance (db : DB) (p : String) : Decidable (recordedP db p) := by
  unfold recordedP
  infer_instance

/-- A path with a book that fails to open, or an injected store fault,
never commits: the store is unchanged. -/
def indexFails (fa : String → Option TxStep) (f : XFile) : Prop :=
  f.book = Option.none ∨ fa f.path ≠ Option.none

/-- Valid document for the partial-failure instance. -/
def goodFile : XFile :=
  ⟨"good.xlsx", 3, Option.some [⟨"S", [[⟨"A1", PyValue.str "ok"⟩]], false⟩]⟩

/-- Corrupt document for the partial-failure instance. -/
def badFile : XFile := ⟨"bad.xlsm", 4, Option.none⟩

example : likeMatch "%ABC%".data "abc".data = true := by decide

example : likeMatch "%a_c%".data "abc".data = true := by decide

example : likeMatch "%%".data "abc".data = true := by decide

example : likeMatch "%x%".data "abc".data = false := by decide

theorem likeMatch_pct (ps s : List Char) :
    likeMatch ('%' :: ps) s = s.tails.any fun t => likeMatch ps t := by
  simp [likeMatch]

theorem likeMatch_lit_pct (q : List Char) (s : List Char) (hq : noMeta q) :
    (likeMatch (q ++ ['%']) s = true) ↔ q.map likeFold <+: s.map likeFold := by
  induction q generalizing s with
  | nil =>
    simp only [List.nil_append, List.map_nil, List.nil_prefix, iff_true]
    rw [likeMatch_pct, List.any_eq_true]
    exact ⟨[], by simp [List.mem_tails], by simp [likeMatch]⟩
  | cons a q ih =>
    obtain ⟨ha1, ha2⟩ := hq a (List.mem_cons_self ..)
    have hq' : noMeta q := fun c hc => hq c (List.mem_cons_of_mem _ hc)
    cases s with
    | nil => simp [likeMatch, ha1]
    | cons c s' =>
      simp [likeMatch, ha1, ha2, ih s' hq', List.cons_prefix_cons]

theorem likeMatch_pct_lit_pct (q : List Char) (s : List Char) (hq : noMeta q) :
    (likeMatch ('%' :: (q ++ ['%'])) s = true) ↔
      q.map likeFold <:+: s.map likeFold := by
  rw [likeMatch_pct, List.any_eq_true]
  constructor
  · rintro ⟨t, ht, hm⟩
    rw [List.mem_tails] at ht
    rw [likeMatch_lit_pct _ _ hq] at hm
    exact List.infix_iff_prefix_suffix.2 ⟨t.map likeFold, hm, List.IsSuffix.map likeFold ht⟩
  · intro h
    obtain ⟨t', hpre, hsuf⟩ := List.infix_iff_prefix_suffix.1 h
    obtain ⟨u, hu⟩ := hsuf
    obtain ⟨l₁, l₂, hs, h1, h2⟩ := List.map_eq_append_iff.1 hu.symm
    refine ⟨l₂, ?_, ?_⟩
    · rw [List.mem_tails]
      exact ⟨l₁, hs.symm⟩
    · rw [likeMatch_lit_pct _ _ hq, h2]
      exact hpre

/-- Membership in a `search` result, unfolded to the joined tables. -/
theorem mem_search (db : DB) (q : String) (x : String × String × String × String) :
    x ∈ search db q ↔ ∃ ci ∈ db.content_index, ∃ f ∈ db.files,
      f.id = ci.file_id ∧
      sqliteLike ("%" ++ q ++ "%") ci.content = true ∧
      x = (f.file_path, ci.sheet_name, ci.cell_coordinate, ci.content) := by
  simp only [search, List.mem_flatMap, List.mem_filter, List.mem_map, beq_iff_eq]
  constructor
  · rintro ⟨ci, ⟨hci, hlike⟩, f, ⟨hf, hid⟩, hx⟩
    exact ⟨ci, hci, f, hf, hid, hlike, hx.symm⟩
  · rintro ⟨ci, hci, f, hf, hid, hlike, hx⟩
    exact ⟨ci, ⟨hci, hlike⟩, f, ⟨hf, hid⟩, hx.symm⟩

/-- Claim C3 is false as stated: the stored entry with content "abc" is
returned by `search "ABC"` although "ABC" is not a contiguous substring of
"abc" — SQLite's LIKE compares ASCII letters case-insensitively, so the
"only if" direction of the claim fails. -/
theorem C3_counterexample :
    ("f.xlsx", "Sheet1", "A1", "abc") ∈ search dbLower "ABC" ∧
      ¬ ("ABC".data <:+: "abc".data) := by decide

/-- Claim C3 (amended): for every stored entry (joined to its owning file
row) and every query `q`, `search q` returns the entry iff the SQL pattern
`%q%` LIKE-matches its content under SQLite's default semantics (ASCII
case-insensitive, `%` and `_` in `q` acting as wildcards); in particular
`search ""` returns every stored entry. -/
theorem C3_search_like_characterization (db : DB) (r : ContentRow) (f : FilesRow)
    (q : String)
    (hr : r ∈ db.content_index) (hf : f ∈ db.files) (hid : f.id = r.file_id) :
    (((f.file_path, r.sheet_name, r.cell_coordinate, r.content) ∈ search db q) ↔
      sqliteLike ("%" ++ q ++ "%") r.content = true) ∧
    (f.file_path, r.sheet_name, r.cell_coordinate, r.content) ∈ search db "" := by
  refine ⟨⟨?_, ?_⟩, ?_⟩
  · intro hmem
    obtain ⟨ci, hci, f', hf', hid', hlike, hx⟩ := (mem_search db q _).1 hmem
    have h4 : r.content = ci.content := congrArg (fun y => y.2.2.2) hx
    rw [show sqliteLike ("%" ++ q ++ "%") r.content = likeMatch ("%" ++ q ++ "%").data r.content.data from rfl, h4]
    exact hlike
  · intro hlike
    exact (mem_search db q _).2 ⟨r, hr, f, hf, hid, hlike, rfl⟩
  · refine (mem_search db "" _).2 ⟨r, hr, f, hf, hid, ?_, rfl⟩
    show likeMatch ("%" ++ "" ++ "%").data r.content.data = true
    rw [show ("%" ++ "" ++ "%").data = '%' :: (([] : List Char) ++ ['%']) from rfl]
    rw [likeMatch_pct_lit_pct [] _ (by intro c hc; cases hc)]
    simp

theorem C3_search_like_characterization_witness :
    ((("f.xlsx", "Sheet1", "A1", "abc") ∈ search dbLower "b") ↔
      sqliteLike ("%" ++ "b" ++ "%") "abc" = true) ∧
    ("f.xlsx", "Sheet1", "A1", "abc") ∈ search dbLower "" :=
  C3_search_like_characterization dbLower ⟨1, 1, "Sheet1", "A1", "abc"⟩
    ⟨1, "f.xlsx", "2023-01-01 00:00:00", "2023-01-02 00:00:00"⟩ "b"
    (by decide) (by decide) rfl

/-- Claim C10: for a query consisting only of ASCII letters (no LIKE
metacharacters), `search` matches under ASCII case-insensitive comparison:
if some contiguous substring of a stored entry's content differs from the
query only in ASCII letter case, the entry is returned. -/
theorem C10_search_ascii_case_insensitive (db : DB) (r : ContentRow) (f : FilesRow)
    (q t : String)
    (hr : r ∈ db.content_index) (hf : f ∈ db.files) (hid : f.id = r.file_id)
    (hq : ∀ c ∈ q.data, ('A' ≤ c ∧ c ≤ 'Z') ∨ ('a' ≤ c ∧ c ≤ 'z'))
    (ht : t.data <:+: r.content.data)
    (hcase : t.data.map likeFold = q.data.map likeFold) :
    (f.file_path, r.sheet_name, r.cell_coordinate, r.content) ∈ search db q := by
  have hnm : noMeta q.data := by
    intro c hc
    rcases hq c hc with ⟨h1, h2⟩ | ⟨h1, h2⟩ <;>
      refine ⟨?_, ?_⟩ <;> rintro rfl <;> revert h1 h2 <;> decide
  refine (mem_search db q _).2 ⟨r, hr, f, hf, hid, ?_, rfl⟩
  show likeMatch ("%" ++ q ++ "%").data r.content.data = true
  have hdata : ("%" ++ q ++ "%").data = '%' :: (q.data ++ ['%']) := by
    simp
  rw [hdata, likeMatch_pct_lit_pct _ _ hnm, ← hcase]
  exact List.IsInfix.map likeFold ht

theorem C10_search_ascii_case_insensitive_witness :
    ("g.xlsx", "S", "A1", "abc") ∈ search dbUpperQuery "ABC" :=
  C10_search_ascii_case_insensitive dbUpperQuery ⟨1, 1, "S", "A1", "abc"⟩
    ⟨1, "g.xlsx", "2023-02-01 00:00:00", "2023-02-02 00:00:00"⟩ "ABC" "abc"
    (by decide) (by decide) rfl (by decide) (by decide) (by decide)

/-- Claim C1 is right and the code wrong: re-indexing "a.xlsx" deletes its
files row first, so the subsequent DELETE on content_index — whose
subquery looks the path up in the files table — matches nothing, and the
prior version's row survives.  Worse, SQLite re-allocates the freed rowid
1 to the new files row, so the stale row is again owned by the path: the
rows owned by "a.xlsx" after a successful re-index are [old, new], not
exactly the new extraction, and a search returns both. -/
theorem C1_stale_rows_after_reindex :
    (index_file dbBefore "a.xlsx" 5 6 (Option.some bookNew) Option.none).db =
      ⟨[⟨1, "a.xlsx", "5", "6"⟩],
       [⟨1, 1, "Sheet1", "A1", "old"⟩, ⟨2, 1, "Sheet1", "A1", "new"⟩]⟩ ∧
    search (index_file dbBefore "a.xlsx" 5 6 (Option.some bookNew) Option.none).db "" =
      [("a.xlsx", "Sheet1", "A1", "old"), ("a.xlsx", "Sheet1", "A1", "new")] := by
  decide

/-- Store operations injected with a failure leave the store untouched:
the body between BEGIN and commit is undone by `conn.rollback()`, and the
operations before BEGIN never change the store. -/
theorem index_file_fail_db_eq (db : DB) (file_path : String)
    (mt ct : Nat) (book : Option (List XSheet)) (s : TxStep) :
    (index_file db file_path mt ct book (Option.some s)).db = db := by
  cases book <;> cases s <;> simp [index_file]

/-- Claim C2: a failure anywhere inside the replaceFile transaction of
`index_file` rolls the whole transaction back — the store afterwards
equals the store before the call, so the path's previously committed rows
are untouched, no half-written entry set exists, and other paths' rows are
unchanged. -/
theorem C2_transaction_rollback (db : DB) (file_path : String)
    (mt ct : Nat) (book : Option (List XSheet)) (s : TxStep) :
    (index_file db file_path mt ct book (Option.some s)).db = db :=
  index_file_fail_db_eq db file_path mt ct book s

/-- Claim C5 is right and the code wrong: when a FileRecord exists, the
fetched last_modified is a Python str (sqlite3 returns TIMESTAMP columns
as text without detect_types) while `modified_time` is a datetime, so
`result[0] < modified_time` raises TypeError instead of comparing;
`update_index` catches the exception and skips the file.  Concretely,
"old.xlsx" has a strictly newer mtime (7 > stored 1), which per the claim
must mean "needs indexing", yet the run leaves the store untouched. -/
theorem C5_needs_update_type_error :
    needs_update dbWithOld "old.xlsx" 7 = Except.error pyTypeErrorMsg ∧
    (update_index [fOldNewer] dbWithOld 9 (fun _ => Option.none)).db = dbWithOld :=
  ⟨rfl, by decide⟩

/-- Claim C8 is false as stated: cursor creation and `BEGIN TRANSACTION`
run after the successful `load_workbook` but before the try whose
`finally` holds `wb.close()`; a failure there exits `index_file` with the
workbook opened and never closed. -/
theorem C8_counterexample :
    (index_file dbBefore "a.xlsx" 5 6 (Option.some bookNew)
        (Option.some TxStep.opTx)).wbOpened = true ∧
    (index_file dbBefore "a.xlsx" 5 6 (Option.some bookNew)
        (Option.some TxStep.opTx)).wbClosed = false := by
  decide

/-- Claim C8 (amended): whenever the workbook opens and the pre-transaction
step (cursor creation + BEGIN) does not fail, the handle is closed on
every exit path — successful commit, per-sheet read failure, and a failure
of any statement inside the transaction alike.  An exception between the
successful open and the start of the inner try leaves it unclosed. -/
theorem C8_workbook_closed (db : DB) (file_path : String) (mt ct : Nat)
    (sheets : List XSheet) (failAt : Option TxStep)
    (hpre : failAt ≠ Option.some TxStep.opTx) :
    (index_file db file_path mt ct (Option.some sheets) failAt).wbClosed = true := by
  cases failAt with
  | none => simp [index_file]
  | some s => cases s <;> simp_all [index_file]

theorem C8_workbook_closed_witness :
    Option.some TxStep.opCommit ≠ Option.some TxStep.opTx ∧
    (index_file dbBefore "a.xlsx" 5 6 (Option.some bookNew)
        (Option.some TxStep.opCommit)).wbClosed = true :=
  ⟨by decide, C8_workbook_closed dbBefore "a.xlsx" 5 6 bookNew
    (Option.some TxStep.opCommit) (by decide)⟩

/-- Claim C9 is false as stated: cell A1 holds the integer 0 — a non-empty
value whose str() is the non-empty string "0" — yet `if cell.value:`
tests Python truthiness, so the cell is skipped and no ContentEntry row is
committed for it. -/
theorem C9_counterexample :
    PyValue.toStr (PyValue.int 0) ≠ "" ∧
    (index_file dbFresh "z.xlsx" 5 6 (Option.some bookZero)
        Option.none).db.content_index = [] := by
  decide

theorem insertContentRows_map_stripId (vals : List (Nat × String × String × String)) :
    ∀ tbl, (insertContentRows tbl vals).map stripId = tbl.map stripId ++ vals := by
  induction vals with
  | nil => intro tbl; simp [insertContentRows]
  | cons v vs ih => intro tbl; simp [insertContentRows, ih, stripId]

theorem mem_filterMap_cellEntry (fid : Nat) (nm : String) (cells : List XCell)
    (v : Nat × String × String × String)
    (hv : v ∈ cells.filterMap (cellEntry fid nm)) :
    ∃ cell ∈ cells, cell.value.truthy = true ∧
      v = (fid, nm, cell.coordinate, cell.value.toStr) := by
  obtain ⟨cell, hcell, hc⟩ := List.mem_filterMap.mp hv
  by_cases ht : cell.value.truthy
  · refine ⟨cell, hcell, ht, ?_⟩
    simp [cellEntry, ht] at hc
    exact hc.symm
  · simp [cellEntry, ht] at hc

theorem sheet_values_flatten (fid : Nat) (sh : XSheet) :
    sheet_values fid sh = sh.rows.flatten.filterMap (cellEntry fid sh.name) := by
  rw [sheet_values]
  simp [List.flatMap_def, List.filterMap_flatten]

theorem mem_sheet_values (fid : Nat) (sh : XSheet)
    (v : Nat × String × String × String) (hv : v ∈ sheet_values fid sh) :
    ∃ cell ∈ sh.rows.flatten, cell.value.truthy = true ∧
      v = (fid, sh.name, cell.coordinate, cell.value.toStr) := by
  rw [sheet_values_flatten] at hv
  exact mem_filterMap_cellEntry fid sh.name sh.rows.flatten v hv

theorem sheet_values_name (fid : Nat) (sh : XSheet)
    (v : Nat × String × String × String) (hv : v ∈ sheet_values fid sh) :
    v.2.1 = sh.name := by
  obtain ⟨cell, _, _, heq⟩ := mem_sheet_values fid sh v hv
  rw [heq]

theorem content_values_cons (fid : Nat) (a : XSheet) (rest : List XSheet) :
    content_values fid (a :: rest) =
      sheet_values fid a ++ content_values fid rest := by
  simp [content_values]

theorem content_values_name (fid : Nat) (sheets : List XSheet)
    (v : Nat × String × String × String) (hv : v ∈ content_values fid sheets) :
    v.2.1 ∈ sheets.map XSheet.name := by
  obtain ⟨sh, hsh, hvsh⟩ := List.mem_flatMap.mp hv
  exact List.mem_map.mpr ⟨sh, hsh, (sheet_values_name fid sh v hvsh).symm⟩

/-- Restricting the whole extraction to one sheet's name yields exactly
that sheet's entries, when sheet names are unique. -/
theorem content_values_filter_name (fid : Nat) (sheets : List XSheet) (sh : XSheet)
    (hnames : (sheets.map XSheet.name).Nodup) (hsh : sh ∈ sheets) :
    (content_values fid sheets).filter (fun v => v.2.1 == sh.name) =
      sheet_values fid sh := by
  induction sheets with
  | nil => cases hsh
  | cons a rest ih =>
      rw [content_values_cons, List.filter_append]
      simp only [List.map_cons, List.nodup_cons] at hnames
      rcases List.mem_cons.mp hsh with rfl | hmem
      · rw [List.filter_eq_self.mpr, List.filter_eq_nil_iff.mpr, List.append_nil]
        · intro v hv hbeq
          have hname := content_values_name fid rest v hv
          rw [beq_iff_eq] at hbeq
          exact hnames.1 (hbeq ▸ hname)
        · intro v hv
          rw [beq_iff_eq]
          exact sheet_values_name fid sh v hv
      · have hne : a.name ≠ sh.name := by
          intro h
          exact hnames.1 (h ▸ List.mem_map.mpr ⟨sh, hmem, rfl⟩)
        rw [List.filter_eq_nil_iff.mpr, List.nil_append, ih hnames.2 hmem]
        intro v hv hbeq
        rw [beq_iff_eq, sheet_values_name fid a v hv] at hbeq
        exact hne hbeq

theorem filterMap_cellEntry_coord_nil (fid : Nat) (nm : String)
    (cells : List XCell) (co : String)
    (hco : co ∉ cells.map XCell.coordinate) :
    (cells.filterMap (cellEntry fid nm)).filter (fun v => v.2.2.1 == co) = [] := by
  rw [List.filter_eq_nil_iff]
  intro v hv hbeq
  obtain ⟨cell, hcell, _, heq⟩ := mem_filterMap_cellEntry fid nm cells v hv
  rw [heq] at hbeq
  rw [beq_iff_eq] at hbeq
  exact hco (hbeq ▸ List.mem_map.mpr ⟨cell, hcell, rfl⟩)

/-- Within one successfully read sheet whose cell coordinates are unique,
a truthy cell yields exactly one entry, carrying its stringified value. -/
theorem filterMap_cellEntry_filter_coord (fid : Nat) (nm : String)
    (cells : List XCell) (cell : XCell)
    (hnodup : (cells.map XCell.coordinate).Nodup)
    (hmem : cell ∈ cells) (ht : cell.value.truthy = true) :
    ((cells.filterMap (cellEntry fid nm)).filter
        (fun v => v.2.2.1 == cell.coordinate)).map (fun v => v.2.2.2) =
      [cell.value.toStr] := by
  induction cells with
  | nil => cases hmem
  | cons c cs ih =>
      simp only [List.map_cons, List.nodup_cons] at hnodup
      rcases List.mem_cons.mp hmem with rfl | hmem'
      · rw [List.filterMap_cons_some (show cellEntry fid nm cell =
            Option.some (fid, nm, cell.coordinate, cell.value.toStr) by
              simp [cellEntry, ht])]
        rw [List.filter_cons_of_pos (by simp)]
        rw [filterMap_cellEntry_coord_nil fid nm cs cell.coordinate hnodup.1]
        rfl
      · have hne : c.coordinate ≠ cell.coordinate := by
          intro h
          exact hnodup.1 (h ▸ List.mem_map.mpr ⟨cell, hmem', rfl⟩)
        by_cases htc : c.value.truthy
        · rw [List.filterMap_cons_some (show cellEntry fid nm c =
              Option.some (fid, nm, c.coordinate, c.value.toStr) by
                simp [cellEntry, htc])]
          rw [List.filter_cons_of_neg (by simp [hne])]
          exact ih hnodup.2 hmem'
        · rw [List.filterMap_cons_none (by simp [cellEntry, htc])]
          exact ih hnodup.2 hmem'

theorem filter_proj_eq (L : List ContentRow) (nm co : String) :
    (L.filter (fun r => r.sheet_name == nm && r.cell_coordinate == co)).map
        (fun r => r.content) =
      ((L.map stripId).filter (fun v => v.2.1 == nm && v.2.2.1 == co)).map
        (fun v => v.2.2.2) := by
  induction L with
  | nil => rfl
  | cons r L ih =>
      simp only [List.map_cons, List.filter_cons, stripId]
      by_cases h : (r.sheet_name == nm && r.cell_coordinate == co) = true
      · simp [h, ih]
      · simp [h, ih]

theorem filter_name_map_stripId (L : List ContentRow) (nm : String) :
    (L.filter (fun r => r.sheet_name == nm)).map stripId =
      (L.map stripId).filter (fun v => v.2.1 == nm) := by
  induction L with
  | nil => rfl
  | cons r L ih =>
      simp only [List.map_cons, List.filter_cons, stripId]
      by_cases h : (r.sheet_name == nm) = true
      · simp [h, ih, stripId]
      · simp [h, ih]

/-- Claim C9 (amended): when `index_file` commits into a fresh store, for
every sheet — whether it completes or raises mid-iteration — and every
cell it yields whose value is TRUTHY (not None, "", 0 or False), exactly
one ContentEntry row (sheet name, coordinate, stringified value) is
committed, provided sheet names, and coordinates within the sheet, are
unique; and each sheet's committed rows are exactly the entries of its
yielded truthy cells — a mid-sheet failure loses only the cells the sheet
never yielded, keeps the entries appended before the exception, and
leaves every other sheet's entries intact. -/
theorem C9_extraction_truthy_cells (file_path : String) (mt ct : Nat)
    (sheets : List XSheet) (sh : XSheet) (cell : XCell)
    (hnames : (sheets.map XSheet.name).Nodup)
    (hsh : sh ∈ sheets)
    (hcoords : (sh.rows.flatten.map XCell.coordinate).Nodup)
    (hcell : cell ∈ sh.rows.flatten) (htruthy : cell.value.truthy = true) :
    (((index_file ⟨[], []⟩ file_path mt ct (Option.some sheets)
          Option.none).db.content_index.filter
        (fun r => r.sheet_name == sh.name && r.cell_coordinate == cell.coordinate)).map
      (fun r => r.content)) = [cell.value.toStr] ∧
    ∀ shB ∈ sheets,
      ((index_file ⟨[], []⟩ file_path mt ct (Option.some sheets)
          Option.none).db.content_index.filter
        (fun r => r.sheet_name == shB.name)).map stripId = sheet_values 1 shB := by
  have hLam : (index_file ⟨[], []⟩ file_path mt ct (Option.some sheets)
      Option.none).db.content_index =
      insertContentRows [] (content_values 1 sheets) := rfl
  constructor
  · rw [hLam, filter_proj_eq, insertContentRows_map_stripId (content_values 1 sheets) []]
    rw [List.map_nil, List.nil_append]
    have hsplit : (content_values 1 sheets).filter
        (fun v => v.2.1 == sh.name && v.2.2.1 == cell.coordinate) =
        ((content_values 1 sheets).filter (fun v => v.2.1 == sh.name)).filter
          (fun v => v.2.2.1 == cell.coordinate) := by
      rw [List.filter_filter]
      exact List.filter_congr fun v _ => Bool.and_comm _ _
    rw [hsplit, content_values_filter_name 1 sheets sh hnames hsh,
      sheet_values_flatten 1 sh]
    exact filterMap_cellEntry_filter_coord 1 sh.name sh.rows.flatten cell
      hcoords hcell htruthy
  · intro shB hB
    rw [hLam, filter_name_map_stripId,
      insertContentRows_map_stripId (content_values 1 sheets) []]
    rw [List.map_nil, List.nil_append]
    exact content_values_filter_name 1 sheets shB hnames hB

theorem C9_extraction_truthy_cells_witness :
    (((index_file ⟨[], []⟩ "m.xlsx" 5 6 (Option.some bookMix)
          Option.none).db.content_index.filter
        (fun r => r.sheet_name == "Flaky" && r.cell_coordinate == "B1")).map
      (fun r => r.content)) = [PyValue.toStr (PyValue.str "w")] ∧
    ∀ shB ∈ bookMix,
      ((index_file ⟨[], []⟩ "m.xlsx" 5 6 (Option.some bookMix)
          Option.none).db.content_index.filter
        (fun r => r.sheet_name == shB.name)).map stripId = sheet_values 1 shB :=
  C9_extraction_truthy_cells "m.xlsx" 5 6 bookMix
    ⟨"Flaky", [[⟨"B1", PyValue.str "w"⟩]], true⟩ ⟨"B1", PyValue.str "w"⟩
    (by decide) (by decide) (by decide) (by decide) (by decide)

/-- Claim C6 is false as stated: over the total = 2 candidates
[old.xlsx (already recorded), new.xlsx (new)], the claim requires a
callback after candidate 0 with percent floor(1*100/2) = 50; the run
reports no event with percent 50 — the callback fires only for candidates
that the change check approves, and old.xlsx is skipped silently. -/
theorem C6_counterexample :
    (update_index [fOldNewer, fNew] dbWithOld 9 (fun _ => Option.none)).events =
      [(100, "正在索引: new.xlsx"), (100, "索引完成")] ∧
    ¬ ∃ ev ∈ (update_index [fOldNewer, fNew] dbWithOld 9
        (fun _ => Option.none)).events, ev.1 = 50 := by
  decide

theorem update_loop_events (ct : Nat) (fa : String → Option TxStep) (total : Nat) :
    ∀ (fs : List XFile) (i : Nat) (acc : RunResult),
      (update_loop ct fa total i acc fs).events =
        acc.events ++ progressEventsSpec ct fa total i acc.db fs := by
  intro fs
  induction fs with
  | nil => intro i acc; simp [update_loop, progressEventsSpec]
  | cons f fs ih =>
      intro i acc
      rw [update_loop, ih]
      rcases hnu : needs_update acc.db f.path f.mtime with e | b
      · simp [update_step, hnu, progressEventsSpec]
      · cases b
        · simp [update_step, hnu, progressEventsSpec]
        · simp [update_step, hnu, progressEventsSpec]

/-- Claim C6 (amended): the per-candidate callbacks of a run are exactly
one `(int((i+1)*100/total), "正在索引: " ++ basename)` report per candidate
the change check marks as needing indexing (issued before that candidate
is indexed, none for skipped candidates), followed by one unconditional
`(100, "索引完成")` completion report. -/
theorem C6_progress_reports (files : List XFile) (db : DB) (ct : Nat)
    (failAt : String → Option TxStep) :
    (update_index files db ct failAt).events =
      progressEventsSpec ct failAt files.length 0 db files ++ [(100, "索引完成")] := by
  show (update_loop ct failAt files.length 0 ⟨db, [], []⟩ files).events ++
      [(100, "索引完成")] = _
  rw [update_loop_events]
  rfl

theorem needs_update_recorded (db : DB) (p : String) (mt : Nat)
    (h : recordedP db p) :
    needs_update db p mt = Except.error pyTypeErrorMsg := by
  obtain ⟨row, hrow, hpath⟩ := h
  have hsome : (db.files.find? (fun f => f.file_path == p)).isSome :=
    List.find?_isSome.mpr ⟨row, hrow, by simp [hpath]⟩
  rcases hf : db.files.find? (fun f => f.file_path == p) with _ | r
  · rw [hf] at hsome
    cases hsome
  · rw [needs_update, hf]
    rfl

theorem needs_update_unrecorded (db : DB) (p : String) (mt : Nat)
    (h : ¬ recordedP db p) :
    needs_update db p mt = Except.ok true := by
  have hnone : db.files.find? (fun f => f.file_path == p) = Option.none := by
    rw [List.find?_eq_none]
    intro row hrow hbeq
    exact h ⟨row, hrow, by rwa [beq_iff_eq] at hbeq⟩
  rw [needs_update, hnone]

/-- Committed shape of a successful `index_file` run. -/
theorem index_file_success_db (db : DB) (q : String) (mt ct : Nat)
    (sheets : List XSheet) :
    (index_file db q mt ct (Option.some sheets) Option.none).db =
      ⟨(db.files.filter fun f => !(f.file_path == q)) ++
          [⟨nextId ((db.files.filter fun f => !(f.file_path == q)).map fun f => f.id),
            q, adaptDatetime mt, adaptDatetime ct⟩],
        insertContentRows
          (db.content_index.filter fun ci =>
            !((db.files.filter fun f => !(f.file_path == q)).any fun f =>
                f.file_path == q && f.id == ci.file_id))
          (content_values
            (nextId ((db.files.filter fun f => !(f.file_path == q)).map fun f => f.id))
            sheets)⟩ := rfl

theorem index_file_fails_db_eq (db : DB) (f : XFile) (ct : Nat)
    (fa : String → Option TxStep) (h : indexFails fa f) :
    (index_file db f.path f.mtime ct f.book (fa f.path)).db = db := by
  rcases h with hbook | hfa
  · rw [hbook]
    rfl
  · rcases hs : fa f.path with _ | s
    · exact absurd hs hfa
    · exact index_file_fail_db_eq db f.path f.mtime ct f.book s

theorem recordedP_index_file (db : DB) (q : String) (mt ct : Nat)
    (book : Option (List XSheet)) (fa : Option TxStep) (p : String)
    (h : recordedP db p) :
    recordedP (index_file db q mt ct book fa).db p := by
  cases book with
  | none => exact h
  | some sheets =>
      cases fa with
      | some s => rw [index_file_fail_db_eq]; exact h
      | none =>
          rw [index_file_success_db]
          obtain ⟨row, hrow, hpath⟩ := h
          by_cases hpq : p = q
          · subst hpq
            exact ⟨_, List.mem_append_right _ (List.mem_singleton_self _), rfl⟩
          · refine ⟨row, List.mem_append_left _ ?_, hpath⟩
            rw [List.mem_filter]
            exact ⟨hrow, by simp [hpath, hpq]⟩

theorem recordedP_index_file_rev (db : DB) (q : String) (mt ct : Nat)
    (book : Option (List XSheet)) (fa : Option TxStep) (p : String)
    (h : recordedP (index_file db q mt ct book fa).db p) :
    recordedP db p ∨ p = q := by
  cases book with
  | none => exact Or.inl h
  | some sheets =>
      cases fa with
      | some s => rw [index_file_fail_db_eq] at h; exact Or.inl h
      | none =>
          rw [index_file_success_db] at h
          obtain ⟨row, hrow, hpath⟩ := h
          rcases List.mem_append.mp hrow with hmem | hmem
          · exact Or.inl ⟨row, (List.mem_filter.mp hmem).1, hpath⟩
          · rw [List.mem_singleton] at hmem
            subst hmem
            exact Or.inr hpath.symm

theorem recordedP_index_file_self (db : DB) (q : String) (mt ct : Nat)
    (sheets : List XSheet) :
    recordedP (index_file db q mt ct (Option.some sheets) Option.none).db q := by
  rw [index_file_success_db]
  exact ⟨_, List.mem_append_right _ (List.mem_singleton_self _), rfl⟩

theorem recordedP_update_step (ct : Nat) (fa : String → Option TxStep)
    (total i : Nat) (acc : RunResult) (f : XFile) (p : String)
    (h : recordedP acc.db p) :
    recordedP (update_step ct fa total i acc f).db p := by
  rcases hnu : needs_update acc.db f.path f.mtime with e | b
  · simp only [update_step, hnu]
    exact h
  · cases b
    · simp only [update_step, hnu]
      exact h
    · simp only [update_step, hnu]
      exact recordedP_index_file _ _ _ _ _ _ _ h

theorem recordedP_update_loop (ct : Nat) (fa : String → Option TxStep) (total : Nat) :
    ∀ (fs : List XFile) (i : Nat) (acc : RunResult) (p : String),
      recordedP acc.db p → recordedP (update_loop ct fa total i acc fs).db p := by
  intro fs
  induction fs with
  | nil => intro i acc p h; exact h
  | cons f fs ih =>
      intro i acc p h
      rw [update_loop]
      exact ih _ _ _ (recordedP_update_step ct fa total i acc f p h)

/-- After a run, every candidate is either recorded or doomed to fail
deterministically (unopenable book or injected store fault). -/
theorem update_loop_covers (ct : Nat) (fa : String → Option TxStep) (total : Nat) :
    ∀ (fs : List XFile) (i : Nat) (acc : RunResult), ∀ f ∈ fs,
      recordedP (update_loop ct fa total i acc fs).db f.path ∨ indexFails fa f := by
  intro fs
  induction fs with
  | nil => intro i acc f hf; cases hf
  | cons g fs ih =>
      intro i acc f hf
      rw [update_loop]
      rcases List.mem_cons.mp hf with rfl | hmem
      · by_cases hrec : recordedP acc.db f.path
        · exact Or.inl (recordedP_update_loop ct fa total fs _ _ _
            (recordedP_update_step ct fa total i acc f _ hrec))
        · rcases hbook : f.book with _ | sheets
          · exact Or.inr (Or.inl hbook)
          · rcases hfa : fa f.path with _ | s
            · refine Or.inl (recordedP_update_loop ct fa total fs _ _ _ ?_)
              simp only [update_step, needs_update_unrecorded _ _ _ hrec, hbook, hfa]
              exact recordedP_index_file_self _ _ _ _ _
            · exact Or.inr (Or.inr (by rw [hfa]; exact Option.some_ne_none s))
      · exact ih _ _ f hmem

/-- A run over candidates that are all either recorded or doomed to fail
leaves the store untouched. -/
theorem update_loop_db_frozen (ct : Nat) (fa : String → Option TxStep) (total : Nat) :
    ∀ (fs : List XFile) (i : Nat) (acc : RunResult),
      (∀ f ∈ fs, recordedP acc.db f.path ∨ indexFails fa f) →
      (update_loop ct fa total i acc fs).db = acc.db := by
  intro fs
  induction fs with
  | nil => intro i acc _; rfl
  | cons f fs ih =>
      intro i acc h
      rw [update_loop]
      have hstep : (update_step ct fa total i acc f).db = acc.db := by
        by_cases hrec : recordedP acc.db f.path
        · simp only [update_step, needs_update_recorded _ _ f.mtime hrec]
        · rcases h f (List.mem_cons_self ..) with hrec' | hfail
          · exact absurd hrec' hrec
          · simp only [update_step, needs_update_unrecorded _ _ _ hrec]
            exact index_file_fails_db_eq acc.db f ct fa hfail
      rw [ih _ _ ?_, hstep]
      intro f' hf'
      rw [hstep]
      exact h f' (List.mem_cons_of_mem _ hf')

/-- Claim C4: running the indexing pass a second time over the same
candidate list — same paths, same mtimes, same workbook contents, same
injected store faults — leaves the content_index row set byte-for-byte
identical to its state after the first run. -/
theorem C4_reindex_idempotent (files : List XFile) (db : DB) (t1 t2 : Nat)
    (failAt : String → Option TxStep) :
    (update_index files (update_index files db t1 failAt).db t2
        failAt).db.content_index =
      (update_index files db t1 failAt).db.content_index := by
  have hcov : ∀ f ∈ files,
      recordedP (update_index files db t1 failAt).db f.path ∨ indexFails failAt f :=
    update_loop_covers t1 failAt files.length files 0 ⟨db, [], []⟩
  have hfrozen : (update_index files (update_index files db t1 failAt).db t2
      failAt).db = (update_index files db t1 failAt).db :=
    update_loop_db_frozen t2 failAt files.length files 0
      ⟨(update_index files db t1 failAt).db, [], []⟩ hcov
  rw [hfrozen]

/-- On a store none of whose candidates are recorded yet, a fault-free run
logs exactly one line per unopenable candidate and commits a FileRecord
for every other candidate. -/
theorem update_loop_fresh (ct : Nat) (total : Nat) :
    ∀ (fs : List XFile) (i : Nat) (acc : RunResult),
      (∀ f ∈ fs, ¬ recordedP acc.db f.path) →
      ((fs.map XFile.path).Nodup) →
      ((update_loop ct (fun _ => Option.none) total i acc fs).log =
          acc.log ++ (fs.filter fun f => f.book.isNone).map
            (fun f => errLogLine f.path "load_workbook failed")) ∧
      (∀ f ∈ fs, f.book ≠ Option.none →
          recordedP (update_loop ct (fun _ => Option.none) total i acc fs).db f.path) := by
  intro fs
  induction fs with
  | nil =>
      intro i acc _ _
      exact ⟨by simp [update_loop], fun f hf => absurd hf (List.not_mem_nil f)⟩
  | cons f fs ih =>
      intro i acc hfresh hnodup
      simp only [List.map_cons, List.nodup_cons] at hnodup
      have hrec : ¬ recordedP acc.db f.path := hfresh f (List.mem_cons_self ..)
      rw [update_loop]
      rcases hbook : f.book with _ | sheets
      · have hstep : update_step ct (fun _ => Option.none) total i acc f =
            { db := acc.db,
              log := acc.log ++ [errLogLine f.path "load_workbook failed"],
              events := acc.events ++
                [((i + 1) * 100 / total, "正在索引: " ++ baseName f.path)] } := by
          simp only [update_step, needs_update_unrecorded _ _ _ hrec, hbook]
          rfl
        rw [hstep]
        obtain ⟨ihlog, ihrec⟩ := ih (i + 1)
          { db := acc.db,
            log := acc.log ++ [errLogLine f.path "load_workbook failed"],
            events := acc.events ++
              [((i + 1) * 100 / total, "正在索引: " ++ baseName f.path)] }
          (fun g hg => hfresh g (List.mem_cons_of_mem _ hg)) hnodup.2
        constructor
        · rw [ihlog, List.filter_cons_of_pos (by simp [hbook]), List.map_cons,
            List.append_assoc]
          rfl
        · intro f' hf' hbook'
          rcases List.mem_cons.mp hf' with heq | hmem'
          · exact absurd (show f'.book = Option.none by rw [heq]; exact hbook) hbook'
          · exact ihrec f' hmem' hbook'
      · have hstep : update_step ct (fun _ => Option.none) total i acc f =
            { db := (index_file acc.db f.path f.mtime ct (Option.some sheets)
                Option.none).db,
              log := acc.log,
              events := acc.events ++
                [((i + 1) * 100 / total, "正在索引: " ++ baseName f.path)] } := by
          simp only [update_step, needs_update_unrecorded _ _ _ hrec, hbook]
          simp [show (index_file acc.db f.path f.mtime ct (Option.some sheets)
            Option.none).log = [] from rfl]
        rw [hstep]
        have hfresh' : ∀ g ∈ fs,
            ¬ recordedP (index_file acc.db f.path f.mtime ct (Option.some sheets)
              Option.none).db g.path := by
          intro g hg hcontra
          rcases recordedP_index_file_rev acc.db f.path f.mtime ct
              (Option.some sheets) Option.none g.path hcontra with h1 | h2
          · exact hfresh g (List.mem_cons_of_mem _ hg) h1
          · exact hnodup.1 (h2 ▸ List.mem_map.mpr ⟨g, hg, rfl⟩)
        obtain ⟨ihlog, ihrec⟩ := ih (i + 1)
          { db := (index_file acc.db f.path f.mtime ct (Option.some sheets)
              Option.none).db,
            log := acc.log,
            events := acc.events ++
              [((i + 1) * 100 / total, "正在索引: " ++ baseName f.path)] }
          hfresh' hnodup.2
        constructor
        · rw [ihlog, List.filter_cons_of_neg (by simp [hbook])]
        · intro f' hf' hbook'
          rcases List.mem_cons.mp hf' with heq | hmem'
          · refine recordedP_update_loop ct (fun _ => Option.none) total fs _ _ _ ?_
            show recordedP (index_file acc.db f.path f.mtime ct
              (Option.some sheets) Option.none).db f'.path
            rw [heq]
            exact recordedP_index_file_self acc.db f.path f.mtime ct sheets
          · exact ihrec f' hmem' hbook'

theorem filter_isNone_singleton (l : List XFile) (bad : XFile)
    (hmem : bad ∈ l) (hbad : bad.book = Option.none)
    (hnodup : (l.map XFile.path).Nodup)
    (hgood : ∀ f ∈ l, f ≠ bad → f.book ≠ Option.none) :
    l.filter (fun f => f.book.isNone) = [bad] := by
  induction l with
  | nil => cases hmem
  | cons a l ih =>
      simp only [List.map_cons, List.nodup_cons] at hnodup
      rcases List.mem_cons.mp hmem with heq | hmem'
      · have hnil : l.filter (fun f => f.book.isNone) = [] := by
          rw [List.filter_eq_nil_iff]
          intro g hg hnone
          have hgbad : g ≠ bad := by
            intro hgb
            exact hnodup.1 (List.mem_map.mpr ⟨g, hg, by rw [hgb, heq]⟩)
          exact hgood g (List.mem_cons_of_mem _ hg) hgbad
            (Option.isNone_iff_eq_none.mp hnone)
        rw [List.filter_cons_of_pos (by rw [← heq, hbad]; rfl), hnil, ← heq]
      · have hane : a ≠ bad := fun hab =>
          hnodup.1 (List.mem_map.mpr ⟨bad, hmem', by rw [hab]⟩)
        rw [List.filter_cons_of_neg
            (by simp [Option.isNone_iff_eq_none,
              hgood a (List.mem_cons_self ..) hane])]
        exact ih hmem' hnodup.2 fun g hg hne =>
          hgood g (List.mem_cons_of_mem _ hg) hne

/-- Claim C7: a per-file error never aborts the run.  For a fresh store
and a candidate set of documents with distinct paths containing exactly
one corrupt document (its workbook fails to open) and otherwise valid
ones, a fault-free run commits a FileRecord for every valid document,
appends exactly one error-log line — naming the corrupt document's path —
and still emits the final (100, completion) report. -/
theorem C7_partial_failure_tolerance (files : List XFile) (bad : XFile) (ct : Nat)
    (hmem : bad ∈ files) (hbad : bad.book = Option.none)
    (hgood : ∀ f ∈ files, f ≠ bad → f.book ≠ Option.none)
    (hpaths : (files.map XFile.path).Nodup) :
    (∀ f ∈ files, f ≠ bad →
        recordedP (update_index files ⟨[], []⟩ ct
          (fun _ => Option.none)).db f.path) ∧
    (update_index files ⟨[], []⟩ ct (fun _ => Option.none)).log =
      [errLogLine bad.path "load_workbook failed"] ∧
    (update_index files ⟨[], []⟩ ct (fun _ => Option.none)).events.getLast? =
      Option.some (100, "索引完成") := by
  have hfresh : ∀ f ∈ files, ¬ recordedP (⟨[], []⟩ : DB) f.path := by
    rintro f _ ⟨row, hrow, _⟩
    cases hrow
  obtain ⟨hlog, hrec⟩ := update_loop_fresh ct files.length files 0
    ⟨⟨[], []⟩, [], []⟩ hfresh hpaths
  refine ⟨?_, ?_, ?_⟩
  · intro f hf hne
    exact hrec f hf (hgood f hf hne)
  · show (update_loop ct (fun _ => Option.none) files.length 0
        ⟨⟨[], []⟩, [], []⟩ files).log = _
    rw [hlog, filter_isNone_singleton files bad hmem hbad hpaths hgood]
    rfl
  · exact List.getLast?_concat _

theorem C7_partial_failure_tolerance_witness :
    (∀ f ∈ [goodFile, badFile], f ≠ badFile →
        recordedP (update_index [goodFile, badFile] ⟨[], []⟩ 9
          (fun _ => Option.none)).db f.path) ∧
    (update_index [goodFile, badFile] ⟨[], []⟩ 9 (fun _ => Option.none)).log =
      [errLogLine badFile.path "load_workbook failed"] ∧
    (update_index [goodFile, badFile] ⟨[], []⟩ 9
        (fun _ => Option.none)).events.getLast? =
      Option.some (100, "索引完成") :=
  C7_partial_failure_tolerance [goodFile, badFile] badFile 9
    (by decide) rfl (by decide) (by decide)
